import Mathlib

/-!
Verification development for the LinguaLabel repository.

The front-end code under src/frontend/src (auth.ts, api.ts, the earnings
page) is embedded shallowly: browser localStorage becomes a finite map
from keys to optional strings, HTTP responses become explicit records,
and each TypeScript function becomes a Lean function over those records.
The back-end lifecycle operations (task claim/submit/review, project
counters, Label Studio sync, withdrawal processing) are not part of the
repository sources; where a claim depends on them they are modelled from
the specification text, and each such definition is marked
"Modelled from the spec:" in its doc comment.
-/

namespace LinguaLabel

/-! ## Client-side storage model (src/frontend/src/lib/auth.ts) -/

/-- Key under which the bearer token is stored (auth.ts line 6). -/
def TOKEN_KEY : String := "lingualabel_token"

/-- Key under which the cached user profile is stored (auth.ts line 7). -/
def USER_KEY : String := "lingualabel_user"

/-- Browser localStorage: a map from string keys to stored string values. -/
def Storage : Type := String → Option String

/-- The `User` interface of auth.ts (lines 9-16). -/
structure User where
  id : String
  email : String
  full_name : String
  role : String
  is_active : Bool
  created_at : String

/-- localStorage.removeItem: deletes one key, leaves every other key alone. -/
def removeItem (st : Storage) (key : String) : Storage :=
  fun k => if k = key then none else st k

/-- localStorage.setItem. -/
def setItem (st : Storage) (key value : String) : Storage :=
  fun k => if k = key then some value else st k

/-- getToken (auth.ts lines 36-39): reads the token key from localStorage. -/
def getToken (st : Storage) : Option String := st TOKEN_KEY

/-- removeToken (auth.ts lines 46-50): removes both the token key and the
user key from localStorage. -/
def removeToken (st : Storage) : Storage :=
  removeItem (removeItem st TOKEN_KEY) USER_KEY

/-- getStoredUser (auth.ts lines 52-61): reads the user key; if absent
returns null; otherwise runs JSON.parse inside a try/catch, mapping a
parse exception to null. The JSON.parse builtin is abstracted as a
function returning either a parse error or a `User`. -/
def getStoredUser (parse : String → Except String User) (st : Storage) :
    Option User :=
  match st USER_KEY with
  | none => none
  | some s =>
    match parse s with
    | .ok u => some u
    | .error _ => none

/-- logout (auth.ts lines 120-122): calls removeToken and nothing else. -/
def logout (st : Storage) : Storage := removeToken st

/-- isAuthenticated (auth.ts lines 144-146): double negation of getToken. -/
def isAuthenticated (st : Storage) : Bool := (getToken st).isSome

/-! ## HTTP response model and fetchApi
(src/frontend/src/lib/api.ts lines 62-84 and the second API client,
src/unnamed/part_000 lines 107-138; both have the identical error path). -/

/-- The error envelope `ApiError` of both API clients. -/
structure ApiError where
  detail : String

/-- Whether a status code counts as `response.ok` in fetch: 200-299. -/
def respOk (status : Nat) : Bool := 200 ≤ status && status ≤ 299

/-- An HTTP response as fetchApi observes it: the status code, the result
of parsing the body as the error envelope (`none` when the body is not
parseable JSON, which the source maps through `.catch` to the fallback
object), and the value the body parses to on the success path. -/
structure ApiResponse (T : Type) where
  status : Nat
  errorBody : Option ApiError
  value : T

/-- The result path of fetchApi (api.ts lines 62-84, part_000 lines
107-138): on `response.ok` return the parsed body; otherwise throw an
Error whose message is the error body `detail`, falling back to
"An error occurred" when the body could not be parsed as JSON. -/
def fetchApi {T : Type} (resp : ApiResponse T) : Except String T :=
  if respOk resp.status then
    .ok resp.value
  else
    .error (match resp.errorBody with
      | some e => e.detail
      | none => "An error occurred")

/-! ## getCurrentUser (src/frontend/src/lib/auth.ts lines 124-142). -/

/-- A response from GET /api/auth/me: status plus the profile the body
parses to on success. -/
structure AuthMeResponse where
  status : Nat
  user : User

/-- getCurrentUser (auth.ts lines 124-142): with no stored token it
returns null without touching storage; otherwise, on a non-ok response
it removes the credentials exactly when the status is 401 and returns
null; on an ok response it returns the profile. Returns the updated
storage paired with the result. -/
def getCurrentUser (st : Storage) (resp : AuthMeResponse) :
    Storage × Option User :=
  match getToken st with
  | none => (st, none)
  | some _ =>
    if respOk resp.status then
      (st, some resp.user)
    else
      (if resp.status = 401 then removeToken st else st, none)

/-! ## Earnings and withdrawal
(src/frontend/src/app/dashboard/earnings/page.tsx lines 80-111; the
back-end withdrawal handler is not under src/ and is modelled from the
spec.) -/

/-- The `Earnings` snapshot the earnings page holds (total earned,
pending, available, currency). Amounts are modelled as rationals. -/
structure Earnings where
  total_earned : ℚ
  pending : ℚ
  available : ℚ
  currency : String

/-- Back-end payout state: the available balance of record and whether
payouts are enabled on the connected account. -/
structure PayoutState where
  available : ℚ
  payouts_enabled : Bool

/-- The error kinds of the withdrawal endpoint named by the spec. -/
inductive WithdrawErr where
  | validationError
  | preconditionError
deriving DecidableEq

/-- Modelled from the spec: the back-end `requestWithdrawal(annotatorId,
amount)` handler (POST /api/payments/withdraw), which is not under src/.
Per section 4.4: fails with ValidationError if amount ≤ 0 or
amount > available; fails with PreconditionError if payouts are not
enabled on the connected account; otherwise initiates the payout and
decrements available by the amount. -/
def requestWithdrawal (st : PayoutState) (amount : ℚ) :
    Except WithdrawErr (PayoutState × String) :=
  if amount ≤ 0 then
    .error .validationError
  else if st.available < amount then
    .error .validationError
  else if st.payouts_enabled = false then
    .error .preconditionError
  else
    .ok ({ st with available := st.available - amount }, "Withdrawal initiated")

/-- Whether the message banner the earnings page sets is a success or an
error banner. -/
inductive MsgKind where
  | success
  | error
deriving DecidableEq

/-- Outcome of one run of the withdrawal handler: whether the request was
issued to the processor, which kind of banner was set, and the resulting
back-end payout state. -/
structure HandleResult where
  issued : Bool
  msg : MsgKind
  server : PayoutState

/-- handleWithdraw (earnings/page.tsx lines 80-111). `amount` is the
result of parseFloat on the entered text, with `none` standing for NaN.
The source: if the amount is NaN or ≤ 0, set an error banner and return
without calling the API; if an earnings snapshot is loaded and the amount
exceeds its available balance, set an error banner and return without
calling the API; otherwise call api.requestWithdrawal, setting a success
banner when it resolves and an error banner when it rejects. -/
def handleWithdraw (earnings : Option Earnings) (server : PayoutState)
    (amount : Option ℚ) : HandleResult :=
  match amount with
  | none => ⟨false, .error, server⟩
  | some a =>
    if a ≤ 0 then
      ⟨false, .error, server⟩
    else if match earnings with
            | some e => decide (e.available < a)
            | none => false then
      ⟨false, .error, server⟩
    else
      match requestWithdrawal server a with
      | .ok (server2, _) => ⟨true, .success, server2⟩
      | .error _ => ⟨true, .error, server⟩

/-! ## The API operation table of the second client
(src/unnamed/part_000 lines 141-217) and its fetchApi auth header logic
(lines 107-138). -/

/-- The operations exposed by the `api` object of part_000, with the
request parameters each takes. -/
inductive ApiOp where
  | health
  | getLanguages
  | getLanguage (code : String)
  | getLanguagesByRegion (region : String)
  | createAnnotator
  | getAnnotators (language status : Option String)
  | getAnnotator (id : String)
  | createProject
  | getProjects (language_code status : Option String)
  | getProject (id : String)
  | updateProject (id : String)
  | deleteProject (id : String)
  | activateProject (id : String)
  | addTasks (projectId : String)
  | getTasks (projectId : String) (status : Option String)
  | syncWithLabelStudio (projectId : String)
  | getStats

/-- The `authenticated` option each operation of the part_000 `api`
object passes to fetchApi: `some false` for health, the language
endpoints, the annotator endpoints and stats; omitted (`none`) for every
project, task and sync operation. -/
def opAuthenticatedFlag : ApiOp → Option Bool
  | .health => some false
  | .getLanguages => some false
  | .getLanguage _ => some false
  | .getLanguagesByRegion _ => some false
  | .createAnnotator => some false
  | .getAnnotators _ _ => some false
  | .getAnnotator _ => some false
  | .getStats => some false
  | _ => none

/-- getStoredToken as imported by part_000: reads the token from
localStorage. -/
def getStoredToken (st : Storage) : Option String := st TOKEN_KEY

/-- The Authorization header fetchApi of part_000 attaches (lines
117-123): when the `authenticated` option is not literally `false`, read
the stored token and, if present, set `Bearer <token>`; otherwise attach
nothing. -/
def fetchApiAuthHeader (authenticated : Option Bool) (token : Option String) :
    Option String :=
  if authenticated = some false then
    none
  else
    match token with
    | some t => some ("Bearer " ++ t)
    | none => none

/-- The unauthenticated endpoint group named by the interface table:
health, languages, annotators, stats. -/
def unauthenticatedGroup : ApiOp → Bool
  | .health => true
  | .getLanguages => true
  | .getLanguage _ => true
  | .getLanguagesByRegion _ => true
  | .createAnnotator => true
  | .getAnnotators _ _ => true
  | .getAnnotator _ => true
  | .getStats => true
  | _ => false

/-! ## getProjects URL construction in the two API clients
(src/frontend/src/lib/api.ts lines 118-124 and src/unnamed/part_000
lines 173-179). -/

/-- URLSearchParams.toString over an ordered list of key-value pairs,
joined as key=value with ampersands. -/
def toQueryString : List (String × String) → String
  | [] => ""
  | [kv] => kv.1 ++ "=" ++ kv.2
  | kv :: rest => kv.1 ++ "=" ++ kv.2 ++ "&" ++ toQueryString rest

/-- The guarded searchParams.set both clients perform: the parameter is
added only when the optional value is present and truthy (a nonempty
string). -/
def setParam (ps : List (String × String)) (k : String) (v : Option String) :
    List (String × String) :=
  match v with
  | none => ps
  | some s => if s = "" then ps else ps ++ [(k, s)]

/-- getProjects of src/frontend/src/lib/api.ts (lines 118-124): query
parameters named `language` and `status`. -/
def getProjectsUrlA (language status : Option String) : String :=
  let query := toQueryString (setParam (setParam [] "language" language) "status" status)
  "/api/projects" ++ (if query = "" then "" else "?" ++ query)

/-- getProjects of src/unnamed/part_000 (lines 173-179): query parameters
named `language_code` and `status`. -/
def getProjectsUrlB (language_code status : Option String) : String :=
  let query := toQueryString (setParam (setParam [] "language_code" language_code) "status" status)
  "/api/projects" ++ (if query = "" then "" else "?" ++ query)

/-- Shape of the response body a client decodes getProjects into. -/
inductive RespShape where
  | bareProjectArray
  | projectListEnvelope
deriving DecidableEq

/-- src/frontend/src/lib/api.ts getProjects instantiates fetchApi at
`Project[]`: a bare array of projects. -/
def getProjectsShapeA : RespShape := .bareProjectArray

/-- src/unnamed/part_000 getProjects instantiates fetchApi at
`ProjectListResponse`: an envelope holding `projects` and `total`. -/
def getProjectsShapeB : RespShape := .projectListEnvelope

/-! ## Task lifecycle
(the `Task` record is src/unnamed/part_000 lines 61-73; the back-end
lifecycle operations are not under src/ and are modelled from the spec,
sections 3 and 4.2). -/

/-- The task status domain of the `Task` interface (part_000 line 65). -/
inductive TaskStatus where
  | available
  | assigned
  | in_progress
  | submitted
  | under_review
  | approved
  | rejected
deriving DecidableEq

/-- The claim-relevant slice of a task record: its status and its
assignee field `assigned_to` (part_000 lines 65-66). -/
structure TaskState where
  status : TaskStatus
  assigned_to : Option String
deriving DecidableEq

/-- Modelled from the spec: the task-lifecycle operations of section 4.2
and the status domain of section 3, which are not under src/. claimTask
moves an available task to assigned and sets the assignee; moving to
in_progress, submitting, and moving into review keep the assignee;
submitTask requires the acting annotator to be the assignee; approval
keeps the assignee; rejection returns the task to available and clears
the assignee; a task marked rejected is re-queued to available and
cleared. -/
inductive TaskStep : TaskState → TaskState → Prop where
  | claimTask (t : TaskState) (ann : String) (h : t.status = .available) :
      TaskStep t ⟨.assigned, some ann⟩
  | startTask (t : TaskState) (h : t.status = .assigned) :
      TaskStep t ⟨.in_progress, t.assigned_to⟩
  | submitTask (t : TaskState) (ann : String)
      (h : t.status = .assigned ∨ t.status = .in_progress)
      (ha : t.assigned_to = some ann) :
      TaskStep t ⟨.submitted, t.assigned_to⟩
  | moveToReview (t : TaskState) (h : t.status = .submitted) :
      TaskStep t ⟨.under_review, t.assigned_to⟩
  | approveTask (t : TaskState) (h : t.status = .under_review) :
      TaskStep t ⟨.approved, t.assigned_to⟩
  | rejectTask (t : TaskState) (h : t.status = .under_review) :
      TaskStep t ⟨.available, none⟩
  | markRejected (t : TaskState) (h : t.status = .under_review) :
      TaskStep t ⟨.rejected, t.assigned_to⟩
  | requeueRejected (t : TaskState) (h : t.status = .rejected) :
      TaskStep t ⟨.available, none⟩

/-- Modelled from the spec: a task as bulk task addition creates it
(section 4.2, addTasks) is available and unassigned; reachable tasks are
those produced from that initial state by the lifecycle operations. -/
inductive TaskReachable : TaskState → Prop where
  | init : TaskReachable ⟨.available, none⟩
  | step (t t2 : TaskState) :
      TaskReachable t → TaskStep t t2 → TaskReachable t2

/-- The task invariant of the spec: `assigned_to` is non-null iff the
status is one of assigned, in_progress, submitted, under_review,
approved, rejected. -/
def taskInv (t : TaskState) : Prop :=
  t.assigned_to ≠ none ↔
    (t.status = .assigned ∨ t.status = .in_progress ∨ t.status = .submitted ∨
     t.status = .under_review ∨ t.status = .approved ∨ t.status = .rejected)

/-! ## Project counters
(the `Project` record is src/unnamed/part_000 lines 44-59; the back-end
operations updating the counters are not under src/ and are modelled from
the spec, sections 3 and 4.2). -/

/-- The claim-relevant slice of a project together with the statuses of
its tasks: the per-task statuses, `total_tasks` and `completed_tasks`
(part_000 lines 54-55). -/
structure ProjState where
  tasks : List TaskStatus
  total_tasks : Nat
  completed_tasks : Nat
deriving DecidableEq

/-- Modelled from the spec: a single-task status move of the section 3
pipeline that is not an approval (approval is the separate counter-
incrementing operation). -/
inductive StatusMove : TaskStatus → TaskStatus → Prop where
  | claimMove : StatusMove .available .assigned
  | startMove : StatusMove .assigned .in_progress
  | submitFromAssigned : StatusMove .assigned .submitted
  | submitFromInProgress : StatusMove .in_progress .submitted
  | toReviewMove : StatusMove .submitted .under_review
  | rejectMove : StatusMove .under_review .available
  | markRejectedMove : StatusMove .under_review .rejected
  | requeueMove : StatusMove .rejected .available

/-- Modelled from the spec: the operations of sections 4.2 that touch a
project and its tasks, which are not under src/. addTasks appends a
batch of available tasks and increments `total_tasks` by the batch size;
a non-approval status move of one task leaves both counters unchanged;
approving an under_review task sets it approved and increments
`completed_tasks` by one. -/
inductive ProjStep : ProjState → ProjState → Prop where
  | addTasks (s : ProjState) (n : Nat) :
      ProjStep s ⟨s.tasks ++ List.replicate n .available,
                  s.total_tasks + n, s.completed_tasks⟩
  | taskMove (s : ProjState) (i : Nat) (a b : TaskStatus)
      (hget : s.tasks.get? i = some a) (hmv : StatusMove a b) :
      ProjStep s ⟨s.tasks.set i b, s.total_tasks, s.completed_tasks⟩
  | approve (s : ProjState) (i : Nat)
      (hget : s.tasks.get? i = some .under_review) :
      ProjStep s ⟨s.tasks.set i .approved, s.total_tasks,
                  s.completed_tasks + 1⟩

/-- Modelled from the spec: a project is created with no tasks and both
counters zero (section 4.1, createProject); reachable project states are
those produced from that initial state by the operations. -/
inductive ProjReachable : ProjState → Prop where
  | init : ProjReachable ⟨[], 0, 0⟩
  | step (s s2 : ProjState) :
      ProjReachable s → ProjStep s s2 → ProjReachable s2

/-! ## Label Studio sync bridge
(the front-end wrapper is src/unnamed/part_000 lines 209-213; the
back-end sync logic is not under src/ and is modelled from the spec,
section 4.3). -/

/-- The sync-relevant slice of a project: its stored external project id
and the stored external ids of its tasks, in order. -/
structure SyncProject where
  ls_project_id : Option Nat
  task_ids : List (Option Nat)
deriving DecidableEq

/-- The external annotation tool state: a fresh-id counter and the lists
of external project ids and external task ids created in it. -/
structure LabelStudioState where
  next_id : Nat
  projects : List Nat
  tasks : List Nat
deriving DecidableEq

/-- Modelled from the spec: the project half of sync (section 4.3) — if
the project has no external project id, create one in the external tool
and record it; a project keyed by a stored external id is reused as is. -/
def syncProjectId (p : SyncProject) (ext : LabelStudioState) :
    Nat × LabelStudioState :=
  match p.ls_project_id with
  | some pid => (pid, ext)
  | none => (ext.next_id,
      ⟨ext.next_id + 1, ext.projects ++ [ext.next_id], ext.tasks⟩)

/-- Modelled from the spec: the task half of sync (section 4.3) — push
every local task lacking an external task id, creating it externally and
recording the new id; tasks that already carry an external id are left
untouched. -/
def syncTasks : List (Option Nat) → LabelStudioState →
    List (Option Nat) × LabelStudioState
  | [], ext => ([], ext)
  | some tid :: rest, ext =>
    let r := syncTasks rest ext
    (some tid :: r.1, r.2)
  | none :: rest, ext =>
    let created := ext.next_id
    let r := syncTasks rest ⟨ext.next_id + 1, ext.projects, ext.tasks ++ [created]⟩
    (some created :: r.1, r.2)

/-- Modelled from the spec: the whole sync operation (section 4.3),
returning the project with its recorded external ids and the updated
external tool state. -/
def sync (p : SyncProject) (ext : LabelStudioState) :
    SyncProject × LabelStudioState :=
  let pr := syncProjectId p ext
  let tr := syncTasks p.task_ids pr.2
  (⟨some pr.1, tr.1⟩, tr.2)

/-- A project that has already been synced: its external project id is
recorded and every task carries an external task id. -/
def fullySynced (p : SyncProject) : Prop :=
  p.ls_project_id.isSome = true ∧ p.task_ids.all Option.isSome = true

/-- Number of approved tasks in a status list. -/
def countApproved : List TaskStatus → Nat
  | [] => 0
  | s :: rest => (if s = .approved then 1 else 0) + countApproved rest

/-- The counter coupling used as the inductive strengthening of the
project invariant: `completed_tasks` counts the approved tasks and
`total_tasks` counts all tasks. -/
def projCounts (s : ProjState) : Prop :=
  s.completed_tasks = countApproved s.tasks ∧
  s.total_tasks = s.tasks.length

/-! ## Sample values used by the witness statements. -/

/-- A sample localStorage holding a token, a cached user and one
unrelated key. -/
def sampleStorage : Storage :=
  fun k =>
    if k = TOKEN_KEY then some "tok123"
    else if k = USER_KEY then some "cacheduser"
    else if k = "theme" then some "dark"
    else none

/-- A sample localStorage whose user key holds a string that is not
valid JSON. -/
def sampleCorruptStorage : Storage :=
  fun k =>
    if k = TOKEN_KEY then some "tok123"
    else if k = USER_KEY then some "not json"
    else none

/-- A JSON.parse stand-in that fails on every input, as JSON.parse does
on corrupt data. -/
def failingParse : String → Except String User :=
  fun _ => .error "SyntaxError"

/-- A sample user profile. -/
def sampleUser : User :=
  ⟨"u1", "a@example.com", "Ada", "annotator", true, "2024-01-01"⟩

/-! ## Theorems. -/

/-- C7: logout destroys the whole session — after logout, getToken
returns null, getStoredUser returns null and isAuthenticated is false,
while every key other than the token key and the user key is left
untouched. -/
theorem C7_logout_destroys_session :
    ∀ (st : Storage) (parse : String → Except String User),
      getToken (logout st) = none ∧
      getStoredUser parse (logout st) = none ∧
      isAuthenticated (logout st) = false ∧
      ∀ k, k ≠ TOKEN_KEY → k ≠ USER_KEY → logout st k = st k := by
  intro st parse
  refine ⟨rfl, rfl, rfl, ?_⟩
  intro k hk1 hk2
  show (if k = USER_KEY then none else if k = TOKEN_KEY then none else st k) = st k
  rw [if_neg hk2, if_neg hk1]

/-- C7 witness: on a concrete storage holding a token, a user and a
theme key, logout leaves the theme key untouched and clears the token. -/
theorem C7_witness :
    logout sampleStorage "theme" = sampleStorage "theme" ∧
    getToken (logout sampleStorage) = none :=
  ⟨(C7_logout_destroys_session sampleStorage failingParse).2.2.2 "theme"
      (by decide) (by decide),
   (C7_logout_destroys_session sampleStorage failingParse).1⟩

/-- C9: getStoredUser is total on corrupt storage — for every string
stored under the user key it returns either the parsed user or null, and
whenever the parse fails it returns null. -/
theorem C9_getStoredUser_total :
    ∀ (parse : String → Except String User) (st : Storage) (s : String),
      st USER_KEY = some s →
      ((∃ u, parse s = .ok u ∧ getStoredUser parse st = some u) ∨
        getStoredUser parse st = none) ∧
      (∀ e, parse s = .error e → getStoredUser parse st = none) := by
  intro parse st s hs
  constructor
  · cases hp : parse s with
    | ok u => exact Or.inl ⟨u, rfl, by simp [getStoredUser, hs, hp]⟩
    | error e => exact Or.inr (by simp [getStoredUser, hs, hp])
  · intro e he
    simp [getStoredUser, hs, he]

/-- C9 witness: on a storage whose user key holds the non-JSON string
"not json" and a parse that fails, getStoredUser returns null. -/
theorem C9_witness :
    getStoredUser failingParse sampleCorruptStorage = none :=
  (C9_getStoredUser_total failingParse sampleCorruptStorage "not json" rfl).2
    "SyntaxError" rfl

/-- C3: a 401 response to the current-user lookup clears both stored
credentials and returns null; any other non-2xx status leaves the
storage unchanged and returns null. Requires a token to be present,
since without one no request is made. -/
theorem C3_getCurrentUser_401_clears_credentials :
    ∀ (st : Storage) (resp : AuthMeResponse),
      (getToken st).isSome = true →
      (resp.status = 401 →
        (getCurrentUser st resp).1 TOKEN_KEY = none ∧
        (getCurrentUser st resp).1 USER_KEY = none ∧
        (getCurrentUser st resp).2 = none) ∧
      (respOk resp.status = false → resp.status ≠ 401 →
        getCurrentUser st resp = (st, none)) := by
  intro st resp htok
  obtain ⟨t, ht⟩ := Option.isSome_iff_exists.mp htok
  constructor
  · intro h401
    have hok : respOk resp.status = false := by
      rw [h401]; rfl
    unfold getCurrentUser
    rw [show getToken st = some t from ht, hok, if_pos h401]
    exact ⟨rfl, rfl, rfl⟩
  · intro hok hne
    unfold getCurrentUser
    rw [show getToken st = some t from ht, hok, if_neg hne]
    rfl

/-- C3 witness: a 401 from /api/auth/me against a storage holding a
token and a cached user ends with both keys cleared and a null result. -/
theorem C3_witness :
    (getCurrentUser sampleStorage ⟨401, sampleUser⟩).1 TOKEN_KEY = none ∧
    (getCurrentUser sampleStorage ⟨401, sampleUser⟩).1 USER_KEY = none ∧
    (getCurrentUser sampleStorage ⟨401, sampleUser⟩).2 = none :=
  (C3_getCurrentUser_401_clears_credentials sampleStorage ⟨401, sampleUser⟩
    rfl).1 rfl

/-- C2: every non-2xx response makes fetchApi reject with the body
detail string, falling back to "An error occurred" when the body is not
parseable JSON, and never yields a normal return value. -/
theorem C2_fetchApi_error_envelope :
    ∀ {T : Type} (resp : ApiResponse T),
      respOk resp.status = false →
      fetchApi resp = .error (match resp.errorBody with
        | some e => e.detail
        | none => "An error occurred") ∧
      ∀ v, fetchApi resp ≠ .ok v := by
  intro T resp hok
  unfold fetchApi
  rw [hok]
  exact ⟨rfl, fun v h => by simp at h⟩

/-- C2 witness: a 404 whose body parses to a detail of "Not found"
rejects with exactly that message, and a 500 with an unparsable body
rejects with the fallback message. -/
theorem C2_witness :
    fetchApi (⟨404, some ⟨"Not found"⟩, (0 : Nat)⟩ : ApiResponse Nat) =
      .error "Not found" ∧
    fetchApi (⟨500, none, (0 : Nat)⟩ : ApiResponse Nat) =
      .error "An error occurred" :=
  ⟨(C2_fetchApi_error_envelope ⟨404, some ⟨"Not found"⟩, 0⟩ rfl).1,
   (C2_fetchApi_error_envelope ⟨500, none, 0⟩ rfl).1⟩

/-- C8: the Authorization bearer header is attached exactly when the
operation is outside the unauthenticated group (health, languages,
annotators, stats) and a token is stored; the unauthenticated group is
always requested without credentials. -/
theorem C8_bearer_header_iff :
    ∀ (op : ApiOp) (st : Storage),
      fetchApiAuthHeader (opAuthenticatedFlag op) (getStoredToken st) ≠ none ↔
        unauthenticatedGroup op = false ∧ getStoredToken st ≠ none := by
  intro op st
  cases h : getStoredToken st <;>
    cases op <;>
      simp [fetchApiAuthHeader, opAuthenticatedFlag, unauthenticatedGroup, h]

/-- C1: the withdrawal handler rejects a NaN, non-positive, or
over-balance amount with an error banner, without issuing the request to
the processor and without changing the available balance; on a valid
amount with payouts enabled it issues the request and the available
balance drops by exactly the requested amount. -/
theorem C1_handleWithdraw_validation :
    ∀ (server : PayoutState) (e : Earnings) (amount : Option ℚ),
      ((amount = none ∨ ∃ a, amount = some a ∧ (a ≤ 0 ∨ e.available < a)) →
        handleWithdraw (some e) server amount = ⟨false, .error, server⟩) ∧
      (∀ a, amount = some a → 0 < a → a ≤ e.available →
        e.available = server.available → server.payouts_enabled = true →
        handleWithdraw (some e) server amount =
          ⟨true, .success, { server with available := server.available - a }⟩) := by
  intro server e amount
  constructor
  · rintro (rfl | ⟨a, rfl, hbad⟩)
    · rfl
    · by_cases ha : a ≤ 0
      · simp [handleWithdraw, ha]
      · rcases hbad with hle | hlt
        · exact absurd hle ha
        · simp [handleWithdraw, ha, hlt]
  · rintro a rfl h0 hle heq hpe
    have ha : ¬ a ≤ 0 := not_le.mpr h0
    have hlt : ¬ e.available < a := not_lt.mpr hle
    have hsrv : ¬ server.available < a := by
      rw [← heq]; exact hlt
    simp [handleWithdraw, requestWithdrawal, ha, hlt, hsrv, hpe]

/-- C1 witness: with an available balance of 30, a withdrawal of 50 is
rejected without a processor call and without touching the balance, and
a withdrawal of 10 succeeds leaving a balance of 20. -/
theorem C1_witness :
    handleWithdraw (some ⟨30, 0, 30, "USD"⟩) ⟨30, true⟩ (some 50) =
      ⟨false, .error, ⟨30, true⟩⟩ ∧
    handleWithdraw (some ⟨30, 0, 30, "USD"⟩) ⟨30, true⟩ (some 10) =
      ⟨true, .success, ⟨20, true⟩⟩ := by
  constructor
  · exact (C1_handleWithdraw_validation ⟨30, true⟩ ⟨30, 0, 30, "USD"⟩
      (some 50)).1 (Or.inr ⟨50, rfl, Or.inr (by decide)⟩)
  · have h := (C1_handleWithdraw_validation ⟨30, true⟩ ⟨30, 0, 30, "USD"⟩
      (some 10)).2 10 rfl (by decide) (by decide) (by decide) rfl
    have h20 : (30 : ℚ) - 10 = 20 := by norm_num
    simpa [h20] using h

/-- Running syncTasks over a task list whose entries all carry external
ids changes nothing. -/
theorem syncTasks_all_some :
    ∀ (l : List (Option Nat)) (ext : LabelStudioState),
      l.all Option.isSome = true → syncTasks l ext = (l, ext) := by
  intro l
  induction l with
  | nil => intro ext _; rfl
  | cons hd tl ih =>
    intro ext h
    cases hd with
    | some t =>
      rw [List.all_cons] at h
      simp only [Option.isSome_some, Bool.true_and] at h
      simp [syncTasks, ih ext h]
    | none =>
      rw [List.all_cons] at h
      simp at h

/-- C6: sync is idempotent on an already-synced project — when the
external project id is recorded and every task carries an external task
id, re-running sync changes neither the stored ids nor the external
tool state, so no duplicate external records can be created. -/
theorem C6_sync_idempotent :
    ∀ (p : SyncProject) (ext : LabelStudioState),
      fullySynced p → sync p ext = (p, ext) := by
  rintro ⟨lsid, tids⟩ ext ⟨h1, h2⟩
  cases lsid with
  | none => simp at h1
  | some pid =>
    simp only [sync, syncProjectId]
    rw [syncTasks_all_some tids ext h2]

/-- C6 witness: a concrete synced project with two tasks is left exactly
as it is. -/
theorem C6_witness :
    sync ⟨some 1, [some 2, some 3]⟩ ⟨4, [1], [2, 3]⟩ =
      (⟨some 1, [some 2, some 3]⟩, ⟨4, [1], [2, 3]⟩) :=
  C6_sync_idempotent ⟨some 1, [some 2, some 3]⟩ ⟨4, [1], [2, 3]⟩
    (by exact ⟨rfl, rfl⟩)

/-- C4: every task reachable through the lifecycle operations satisfies
the assignee invariant — assigned_to is non-null iff the status is one
of assigned, in_progress, submitted, under_review, approved, rejected. -/
theorem C4_task_assignee_invariant :
    ∀ t, TaskReachable t → taskInv t := by
  intro t h
  induction h with
  | init => simp [taskInv]
  | step t t2 hr hs ih =>
    cases hs with
    | claimTask ann h => simp [taskInv]
    | startTask h =>
      have hna : t.assigned_to ≠ none := ih.mpr (Or.inl h)
      simp [taskInv, hna]
    | submitTask ann h ha =>
      simp [taskInv, ha]
    | moveToReview h =>
      have hna : t.assigned_to ≠ none := ih.mpr (Or.inr (Or.inr (Or.inl h)))
      simp [taskInv, hna]
    | approveTask h =>
      have hna : t.assigned_to ≠ none :=
        ih.mpr (Or.inr (Or.inr (Or.inr (Or.inl h))))
      simp [taskInv, hna]
    | rejectTask h => simp [taskInv]
    | markRejected h =>
      have hna : t.assigned_to ≠ none :=
        ih.mpr (Or.inr (Or.inr (Or.inr (Or.inl h))))
      simp [taskInv, hna]
    | requeueRejected h => simp [taskInv]

/-- C4 witness: the task produced by claiming a fresh available task is
assigned with a non-null assignee and satisfies the invariant. -/
theorem C4_witness :
    taskInv ⟨TaskStatus.assigned, some "ann1"⟩ :=
  C4_task_assignee_invariant ⟨TaskStatus.assigned, some "ann1"⟩
    (TaskReachable.step ⟨TaskStatus.available, none⟩ _
      TaskReachable.init
      (TaskStep.claimTask ⟨TaskStatus.available, none⟩ "ann1" rfl))

/-- countApproved distributes over append. -/
theorem countApproved_append :
    ∀ (l1 l2 : List TaskStatus),
      countApproved (l1 ++ l2) = countApproved l1 + countApproved l2 := by
  intro l1 l2
  induction l1 with
  | nil => simp [countApproved]
  | cons hd tl ih => simp [countApproved, ih]; omega

/-- A batch of freshly added available tasks contributes no approvals. -/
theorem countApproved_replicate_available :
    ∀ n : Nat, countApproved (List.replicate n TaskStatus.available) = 0 := by
  intro n
  induction n with
  | zero => rfl
  | succ m ih => simp [List.replicate, countApproved, ih]

/-- The approved count never exceeds the number of tasks. -/
theorem countApproved_le_length :
    ∀ l : List TaskStatus, countApproved l ≤ l.length := by
  intro l
  induction l with
  | nil => simp [countApproved]
  | cons hd tl ih =>
    simp only [countApproved, List.length_cons]
    by_cases h : hd = TaskStatus.approved <;> simp [h] <;> omega

/-- Overwriting position i changes the approved count by the difference
of the indicator of the old and the new status. -/
theorem countApproved_set :
    ∀ (l : List TaskStatus) (i : Nat) (a b : TaskStatus),
      l.get? i = some a →
      countApproved (l.set i b) + (if a = TaskStatus.approved then 1 else 0) =
        countApproved l + (if b = TaskStatus.approved then 1 else 0) := by
  intro l
  induction l with
  | nil => intro i a b h; simp at h
  | cons hd tl ih =>
    intro i a b h
    cases i with
    | zero =>
      simp only [List.get?_cons_zero, Option.some.injEq] at h
      subst h
      simp only [List.set_cons_zero, countApproved]
      omega
    | succ n =>
      simp only [List.get?_cons_succ] at h
      have hrec := ih n a b h
      simp only [List.set_cons_succ, countApproved]
      omega

/-- No status move of the non-approval pipeline starts or ends at
approved. -/
theorem statusMove_not_approved :
    ∀ {a b : TaskStatus}, StatusMove a b →
      a ≠ TaskStatus.approved ∧ b ≠ TaskStatus.approved := by
  intro a b h
  cases h <;> exact ⟨by decide, by decide⟩

/-- Each project operation preserves the counter coupling. -/
theorem projCounts_step :
    ∀ (s s2 : ProjState), ProjStep s s2 → projCounts s → projCounts s2 := by
  rintro s s2 hstep ⟨hc, ht⟩
  cases hstep with
  | addTasks n =>
    refine ⟨?_, ?_⟩
    · simp [countApproved_append, countApproved_replicate_available, hc]
    · simp [List.length_append, List.length_replicate, ht]
  | taskMove i a b hget hmv =>
    obtain ⟨hna, hnb⟩ := statusMove_not_approved hmv
    have hcs := countApproved_set s.tasks i a b hget
    rw [if_neg hna, if_neg hnb] at hcs
    refine ⟨?_, ?_⟩
    · simp only []
      omega
    · simp [List.length_set, ht]
  | approve i hget =>
    have hcs := countApproved_set s.tasks i TaskStatus.under_review
      TaskStatus.approved hget
    simp at hcs
    refine ⟨?_, ?_⟩
    · simp only []
      omega
    · simp [List.length_set, ht]

/-- Every reachable project state satisfies the counter coupling. -/
theorem projReachable_counts :
    ∀ s, ProjReachable s → projCounts s := by
  intro s h
  induction h with
  | init => exact ⟨rfl, rfl⟩
  | step s s2 hr hs ih => exact projCounts_step s s2 hs ih

/-- C5: after every operation, completed_tasks never exceeds
total_tasks; moreover total_tasks grows only through bulk task addition
and completed_tasks grows only when a task moves from under_review to
approved. -/
theorem C5_project_counter_invariant :
    (∀ s, ProjReachable s → s.completed_tasks ≤ s.total_tasks) ∧
    (∀ s s2, ProjStep s s2 → s.total_tasks < s2.total_tasks →
      ∃ n, s2.tasks = s.tasks ++ List.replicate n TaskStatus.available ∧
        s2.total_tasks = s.total_tasks + n ∧
        s2.completed_tasks = s.completed_tasks) ∧
    (∀ s s2, ProjStep s s2 → s.completed_tasks < s2.completed_tasks →
      ∃ i, s.tasks.get? i = some TaskStatus.under_review ∧
        s2.tasks = s.tasks.set i TaskStatus.approved ∧
        s2.completed_tasks = s.completed_tasks + 1 ∧
        s2.total_tasks = s.total_tasks) := by
  refine ⟨?_, ?_, ?_⟩
  · intro s hr
    obtain ⟨hc, ht⟩ := projReachable_counts s hr
    rw [hc, ht]
    exact countApproved_le_length s.tasks
  · intro s s2 hstep hlt
    cases hstep with
    | addTasks n => exact ⟨n, rfl, rfl, rfl⟩
    | taskMove i a b hget hmv => exact absurd hlt (by simp)
    | approve i hget => exact absurd hlt (by simp)
  · intro s s2 hstep hlt
    cases hstep with
    | addTasks n => exact absurd hlt (by simp)
    | taskMove i a b hget hmv => exact absurd hlt (by simp)
    | approve i hget => exact ⟨i, hget, rfl, rfl, rfl⟩

/-- C5 witness: the project state reached by creating a project and bulk
adding one task satisfies completed_tasks ≤ total_tasks. -/
theorem C5_witness :
    (⟨[TaskStatus.available], 1, 0⟩ : ProjState).completed_tasks ≤
      (⟨[TaskStatus.available], 1, 0⟩ : ProjState).total_tasks :=
  C5_project_counter_invariant.1 ⟨[TaskStatus.available], 1, 0⟩
    (ProjReachable.step ⟨[], 0, 0⟩ _ ProjReachable.init
      (ProjStep.addTasks ⟨[], 0, 0⟩ 1))

/-- A string of positive length is not the empty string. -/
theorem ne_empty_of_length_pos (s : String) (hp : 0 < s.length) : s ≠ "" := by
  intro h0
  rw [h0] at hp
  exact absurd hp (by decide)

/-- C10 counterexample: at the filter input language yo, the two
getProjects clients do not construct the same request URL with the same
query-parameter names and the same response shape. -/
theorem C10_counterexample :
    ¬ (getProjectsUrlA (some "yo") none = getProjectsUrlB (some "yo") none ∧
       getProjectsShapeA = getProjectsShapeB) := by
  decide

/-- C10 (amended): when no language filter is set the two clients
construct the same request URL for every status filter; when a nonempty
language filter is set the URLs differ, because one client names the
parameter language and the other language_code; and the expected
response shapes differ (a bare Project array versus a
ProjectListResponse envelope). -/
theorem C10_getProjects_amended :
    (∀ status, getProjectsUrlA none status = getProjectsUrlB none status) ∧
    (∀ l status, l ≠ "" →
      getProjectsUrlA (some l) status ≠ getProjectsUrlB (some l) status) ∧
    getProjectsShapeA ≠ getProjectsShapeB := by
  refine ⟨fun status => rfl, ?_, by decide⟩
  intro l status hl h
  have h8 : ("language" : String).length = 8 := rfl
  have h13 : ("language_code" : String).length = 13 := rfl
  have h1 : ("=" : String).length = 1 := rfl
  have hq : ("?" : String).length = 1 := rfl
  have hamp : ("&" : String).length = 1 := rfl
  have hst : ("status" : String).length = 6 := rfl
  have hpr : ("/api/projects" : String).length = 13 := rfl
  have h0 : ("" : String).length = 0 := rfl
  cases status with
  | none =>
    simp only [getProjectsUrlA, getProjectsUrlB, setParam, if_neg hl,
      List.nil_append, toQueryString] at h
    have hqa : ("language" ++ "=" ++ l : String) ≠ "" := by
      apply ne_empty_of_length_pos
      simp only [String.length_append]
      omega
    have hqb : ("language_code" ++ "=" ++ l : String) ≠ "" := by
      apply ne_empty_of_length_pos
      simp only [String.length_append]
      omega
    rw [if_neg hqa, if_neg hqb] at h
    have hlen := congrArg String.length h
    simp only [String.length_append] at hlen
    omega
  | some s =>
    by_cases hs : s = ""
    · subst hs
      simp only [getProjectsUrlA, getProjectsUrlB, setParam, if_neg hl,
        if_pos rfl, List.nil_append, toQueryString] at h
      have hqa : ("language" ++ "=" ++ l : String) ≠ "" := by
        apply ne_empty_of_length_pos
        simp only [String.length_append]
        omega
      have hqb : ("language_code" ++ "=" ++ l : String) ≠ "" := by
        apply ne_empty_of_length_pos
        simp only [String.length_append]
        omega
      rw [if_neg hqa, if_neg hqb] at h
      have hlen := congrArg String.length h
      simp only [String.length_append] at hlen
      omega
    · simp only [getProjectsUrlA, getProjectsUrlB, setParam, if_neg hl,
        if_neg hs, List.cons_append, List.nil_append, toQueryString] at h
      have hqa :
          ("language" ++ "=" ++ l ++ "&" ++ ("status" ++ "=" ++ s) : String) ≠ "" := by
        apply ne_empty_of_length_pos
        simp only [String.length_append]
        omega
      have hqb :
          ("language_code" ++ "=" ++ l ++ "&" ++ ("status" ++ "=" ++ s) : String) ≠ "" := by
        apply ne_empty_of_length_pos
        simp only [String.length_append]
        omega
      rw [if_neg hqa, if_neg hqb] at h
      have hlen := congrArg String.length h
      simp only [String.length_append] at hlen
      omega

/-- C10 witness: with no language filter and a status filter of active,
the two clients construct the same URL; and the shapes differ on a
nonempty language input. -/
theorem C10_witness :
    getProjectsUrlA none (some "active") = getProjectsUrlB none (some "active") ∧
    getProjectsUrlA (some "yo") none ≠ getProjectsUrlB (some "yo") none :=
  ⟨C10_getProjects_amended.1 (some "active"),
   C10_getProjects_amended.2.1 "yo" none (by decide)⟩

end LinguaLabel
